import Mathlib

set_option maxRecDepth 100000

/-!
Verification development for the US-ETF-Distribution-ICS-Scheduler repository.

The repository consists of four Python scripts that extract ETF dividend
distribution schedules from issuer PDF text and emit CSV and ICS artifacts:
`SPDR_ETF_cfg.py`, `iShareETF_arg.py`, `VanguardETF_cfg.py`, `VanguardETF_arg.py`.

Modelling conventions used throughout this file:

* Text is modelled as lists of code points (`List Nat`); `ch` converts a Lean
  string literal.  Python `str.upper`, the regex classes `\d` and `\w`, and
  `int()` applied to whitespace-free tokens are modelled at the ASCII level,
  which covers the documents this program processes.
* Python functions that can raise are modelled with `Except` or `Option`;
  an uncaught exception is an `Except.error` result.
* pandas `date - CustomBusinessDay(calendar=USFederalHolidayCalendar())` is
  modelled as the walk backward, one calendar day at a time, to the previous
  day that is neither a weekend day nor an observed US federal holiday;
  plain `date - BDay(1)` as the same walk skipping weekends only.
* Lines produced by `str.split()` (whitespace tokenization) are modelled as
  token lists where the source only ever consumes the split result.
-/

/-- A token or string: a list of code points (characters are plain `Nat`). -/
abbrev Tok := List Nat

/-- Conversion from a Lean string literal to the code-point model. -/
def ch (s : String) : Tok := s.data.map Char.toNat

/-- Model of the regex class `\d` (ASCII digits). -/
def isDigitC (c : Nat) : Bool := decide (48 ≤ c ∧ c ≤ 57)

/-- Model of Python `str.upper` on one ASCII character. -/
def upC (c : Nat) : Nat := if 97 ≤ c ∧ c ≤ 122 then c - 32 else c

/-- Model of Python `str.upper` on a token. -/
def tokUpper (t : Tok) : Tok := t.map upC

/-- Model of the regex class `\w` (ASCII letters, digits, underscore). -/
def isWordC (c : Nat) : Bool :=
  decide ((65 ≤ c ∧ c ≤ 90) ∨ (97 ≤ c ∧ c ≤ 122) ∨ (48 ≤ c ∧ c ≤ 57) ∨ c = 95)

/-- Numeric value of a digit string. -/
def digitsVal (t : Tok) : Nat := t.foldl (fun a c => 10 * a + (c - 48)) 0

/-- Model of Python `int(s)` on a whitespace-free token: succeeds exactly on
nonempty all-digit strings. -/
def pyInt? (t : Tok) : Option Nat :=
  if t ≠ [] && t.all isDigitC then some (digitsVal t) else none

/-- Decimal rendering of a natural number (fuelled, fuel is off the recursion
depth bound so that the definition reduces in the kernel). -/
def natTokGo : Nat → Nat → Tok
  | 0, _ => []
  | fuel+1, n => if n < 10 then [48 + n] else natTokGo fuel (n / 10) ++ [48 + n % 10]

/-- Decimal rendering of a natural number, as used by Python f-string `{int(x)}`. -/
def natTok (n : Nat) : Tok := natTokGo (n + 1) n

namespace Cal

/-- Day-number-to-date conversion (proleptic Gregorian, day 0 = 0000-03-01),
the standard civil-from-days algorithm; models `datetime.date` arithmetic. -/
def civilFromDays (z : Nat) : Nat × Nat × Nat :=
  let era := z / 146097
  let doe := z % 146097
  let yoe := (doe - doe / 1460 + doe / 36524 - doe / 146096) / 365
  let y := yoe + era * 400
  let doy := doe - (365 * yoe + yoe / 4 - yoe / 100)
  let mp := (5 * doy + 2) / 153
  let d := doy - (153 * mp + 2) / 5 + 1
  let m := if mp < 10 then mp + 3 else mp - 9
  (if m ≤ 2 then y + 1 else y, m, d)

/-- Date-to-day-number conversion (inverse of `civilFromDays` on valid dates). -/
def daysFromCivil (y m d : Nat) : Nat :=
  let y2 := if m ≤ 2 then y - 1 else y
  let era := y2 / 400
  let yoe := y2 % 400
  let mp := if 2 < m then m - 3 else m + 9
  let doy := (153 * mp + 2) / 5 + d - 1
  let doe := yoe * 365 + yoe / 4 - yoe / 100 + doy
  era * 146097 + doe

/-- Weekday code of a day number: day 0 (0000-03-01) was a Wednesday, so
0 = Wednesday, 1 = Thursday, 2 = Friday, 3 = Saturday, 4 = Sunday,
5 = Monday, 6 = Tuesday. -/
def wd (z : Nat) : Nat := z % 7

/-- Saturday or Sunday. -/
def isWeekendD (z : Nat) : Bool := wd z == 3 || wd z == 4

/-- Fixed-date US federal holidays observed with the pandas `nearest_workday`
rule: New Year, Juneteenth (rule starts in 2021), Independence Day,
Veterans Day, Christmas. -/
def nearestWorkdayFixed (y m d : Nat) : Bool :=
  (m == 1 && d == 1) || (2021 ≤ y && m == 6 && d == 19) || (m == 7 && d == 4) ||
  (m == 11 && d == 11) || (m == 12 && d == 25)

/-- Whether day `z` is the nominal date of a fixed `nearest_workday` holiday. -/
def fixedAt (z : Nat) : Bool :=
  let c := civilFromDays z
  nearestWorkdayFixed c.1 c.2.1 c.2.2

/-- The `pandas.tseries.holiday.USFederalHolidayCalendar` holiday set, as a
predicate on day numbers.  A fixed-date holiday falling on Saturday is observed
the preceding Friday, on Sunday the following Monday (`nearest_workday`);
the floating holidays are given by month, weekday and day-of-month window. -/
def isUSFederalHoliday (z : Nat) : Bool :=
  let c := civilFromDays z
  let m := c.2.1
  let d := c.2.2
  (fixedAt z && !isWeekendD z) ||
  (wd z == 2 && fixedAt (z + 1)) ||
  (wd z == 5 && fixedAt (z - 1)) ||
  (m == 1 && wd z == 5 && 15 ≤ d && d ≤ 21) ||
  (m == 2 && wd z == 5 && 15 ≤ d && d ≤ 21) ||
  (m == 5 && wd z == 5 && 25 ≤ d && d ≤ 31) ||
  (m == 9 && wd z == 5 && 1 ≤ d && d ≤ 7) ||
  (m == 10 && wd z == 5 && 8 ≤ d && d ≤ 14) ||
  (m == 11 && wd z == 1 && 22 ≤ d && d ≤ 28)

/-- A business day: a weekday that is not a configured holiday. -/
def isBusinessDay (z : Nat) : Bool := !isWeekendD z && !isUSFederalHoliday z

/-- Model of `d - CustomBusinessDay(calendar=USFederalHolidayCalendar())`
(`us_bd` in `SPDR_ETF_cfg.py` line 52, `US_BUSINESS_DAY` in
`VanguardETF_cfg.py` line 43): walk backward one calendar day at a time to the
last day strictly before `z` that is a business day. -/
def prevBusinessDay : Nat → Nat
  | 0 => 0
  | z+1 => if isBusinessDay z then z else prevBusinessDay z

/-- Model of `d - BDay(1)` (plain pandas business day, `VanguardETF_arg.py`
line 51): the same walk, but skipping weekends only — no holiday calendar. -/
def prevWeekday : Nat → Nat
  | 0 => 0
  | z+1 => if !isWeekendD z then z else prevWeekday z

/-- Number of days in a Gregorian month. -/
def daysInMonth (y m : Nat) : Nat :=
  if m == 2 then (if (y % 4 == 0 && y % 100 != 0) || y % 400 == 0 then 29 else 28)
  else if m == 4 || m == 6 || m == 9 || m == 11 then 30 else 31

end Cal

/-- Whether an `Except` computation succeeded. -/
def isOkE {ε α : Type} : Except ε α → Bool
  | .ok _ => true
  | .error _ => false

instance {ε α : Type} [DecidableEq ε] [DecidableEq α] : DecidableEq (Except ε α) := fun a b =>
  match a, b with
  | .ok x, .ok y =>
    if h : x = y then isTrue (by rw [h]) else isFalse (by intro hh; cases hh; exact h rfl)
  | .error x, .error y =>
    if h : x = y then isTrue (by rw [h]) else isFalse (by intro hh; cases hh; exact h rfl)
  | .ok _, .error _ => isFalse (by intro hh; cases hh)
  | .error _, .ok _ => isFalse (by intro hh; cases hh)

namespace VG

/-!
Shared extraction and normalization code of `VanguardETF_cfg.py` and
`VanguardETF_arg.py` (the two files contain these functions verbatim, except
that `parse_row` subtracts `US_BUSINESS_DAY` in the cfg variant and `BDay(1)`
in the arg variant; the subtraction is passed here as the parameter `pf`).
-/

/-- A separator accepted by `DATE_PATTERN` and the fallback split: `/` or `-`. -/
def isSepC (c : Nat) : Bool := decide (c = 47 ∨ c = 45)

/-- Greedily take up to two leading ASCII digits (the regex `\d{1,2}`
followed by a mandatory non-digit, as in `DATE_PATTERN`). -/
def takeDigits2 (t : Tok) : Tok × Tok :=
  match t with
  | [] => ([], [])
  | c1 :: rest =>
    if isDigitC c1 then
      match rest with
      | c2 :: rest2 => if isDigitC c2 then ([c1, c2], rest2) else ([c1], rest)
      | [] => ([c1], [])
    else ([], c1 :: rest)

/-- Model of `DATE_PATTERN` (`VanguardETF_cfg.py` line 38):
month `\d{1,2}`, a slash-or-dash separator, day `\d{1,2}`, a separator,
year `\d{2}(?:\d{2})?`, anchored at both ends.
Returns the three matched groups (month, day, year strings). -/
def patParse (t : Tok) : Option (Tok × Tok × Tok) :=
  let p1 := takeDigits2 t
  if p1.1 = ([] : Tok) then none else
  match p1.2 with
  | s1 :: r2 =>
    if isSepC s1 then
      let p2 := takeDigits2 r2
      if p2.1 = ([] : Tok) then none else
      match p2.2 with
      | s2 :: r4 =>
        if isSepC s2 then
          if r4.all isDigitC && (r4.length = 2 ∨ r4.length = 4) then some (p1.1, p2.1, r4)
          else none
        else none
      | [] => none
    else none
  | [] => none

/-- Model of `re.split` on the slash-or-dash class (worker). -/
def splitSepsGo : List Nat → Tok → List Tok
  | [], acc => [acc.reverse]
  | c :: rest, acc =>
    if isSepC c then acc.reverse :: splitSepsGo rest [] else splitSepsGo rest (c :: acc)

/-- Model of `re.split` on the slash-or-dash class, applied to a token. -/
def splitSeps (t : Tok) : List Tok := splitSepsGo t []

/-- Field selection of `normalize_date` (lines 55-63): the `DATE_PATTERN`
branch yields (month, day, year); otherwise a 3-part split whose first part
has length 4 is read as year-first.  `none` models the `ValueError`
"Unrecognized date format". -/
def splitFields (t : Tok) : Option (Tok × Tok × Tok) :=
  match patParse t with
  | some g => some g
  | none =>
    match splitSeps t with
    | [ys, ms, ds] => if ys.length = 4 then some (ms, ds, ys) else none
    | _ => none

/-- Model of `normalize_date` (`VanguardETF_cfg.py` lines 51-65,
`VanguardETF_arg.py` lines 33-44): renders the slash-separated f-string of
int month, int day and `yy = year[-2:]`.  `Except.error` models an uncaught `ValueError`
(either "Unrecognized date format" or a failing `int()`). -/
def normalize_date (t : Tok) : Except Unit Tok :=
  match splitFields t with
  | none => .error ()
  | some (ms, ds, ys) =>
    match pyInt? ms, pyInt? ds with
    | some im, some idv =>
      .ok (natTok im ++ [47] ++ natTok idv ++ [47] ++ ys.drop (ys.length - 2))
    | _, _ => .error ()

/-- The `%y` two-digit-year pivot of `strptime`: 00..68 map to 20xx,
69..99 to 19xx. -/
def pivotY2 (yv : Nat) : Nat := if yv ≤ 68 then 2000 + yv else 1900 + yv

/-- Model of `datetime.strptime(s, "%m/%d/%y")` followed by `.date()`:
1-2 digit month in 1..12, `/`, 1-2 digit day, `/`, exactly two year digits
(expanded through the `%y` pivot), the day valid for the month.
Returns (year, month, day). -/
def strptimeMDY2 (t : Tok) : Option (Nat × Nat × Nat) :=
  let p1 := takeDigits2 t
  match p1.2 with
  | 47 :: r2 =>
    let p2 := takeDigits2 r2
    match p2.2 with
    | 47 :: y1 :: y2 :: [] =>
      if p1.1 ≠ [] && p2.1 ≠ [] && isDigitC y1 && isDigitC y2 then
        let mv := digitsVal p1.1
        let dv := digitsVal p2.1
        let yr := pivotY2 (digitsVal [y1, y2])
        if 1 ≤ mv && mv ≤ 12 && 1 ≤ dv && dv ≤ Cal.daysInMonth yr mv then some (yr, mv, dv)
        else none
      else none
    | _ => none
  | _ => none

/-- One canonical schedule record of the column-position dialect. -/
structure VRow where
  quarter : Tok
  record : Tok
  exMinus1 : Tok
  ex : Tok
  pay : Tok
deriving DecidableEq, Repr

/-- Model of `parse_row` (`VanguardETF_cfg.py` lines 68-91,
`VanguardETF_arg.py` lines 46-65), with the business-day subtraction `pf`
(`US_BUSINESS_DAY` resp. `BDay(1)`).  `Except.error` models an uncaught
`ValueError` from `normalize_date` or `strptime`. -/
def parse_row (pf : Nat → Nat) (rec0 exd pay : Tok) : Except Unit VRow := do
  let rec_norm ← normalize_date rec0
  let ex_norm ← normalize_date exd
  let pay_norm ← normalize_date pay
  match strptimeMDY2 ex_norm with
  | none => .error ()
  | some (y, m, d) =>
    let prev := pf (Cal.daysFromCivil y m d)
    let c := Cal.civilFromDays prev
    let ex_prev := natTok c.2.1 ++ [47] ++ natTok c.2.2 ++ [47] ++ (natTok c.1).drop 2
    let quarter :=
      if m ≤ 3 then ch "Q1" else if m ≤ 6 then ch "Q2" else if m ≤ 9 then ch "Q3" else ch "Q4"
    .ok ⟨quarter, rec_norm, ex_prev, ex_norm, pay_norm⟩

/-- First index of `x` in a token list (`list.index` after a successful
membership test). -/
def firstIdx (x : Tok) : List Tok → Option Nat
  | [] => none
  | y :: rest => if y == x then some 0 else (firstIdx x rest).map (· + 1)

/-- The per-line ticker test of `extract_schedule_for_ticker` (lines 103-106):
the requested ticker and every whitespace token of the line are upper-cased
before comparison. -/
def lineHit (line : List Tok) (ticker : Tok) : Bool :=
  (line.map tokUpper).contains (tokUpper ticker)

/-- The matched position `uppers.index(ticker)` of the same test. -/
def hitPos (line : List Tok) (ticker : Tok) : Option Nat :=
  firstIdx (tokUpper ticker) (line.map tokUpper)

/-- The continuation-row loop (`VanguardETF_cfg.py` lines 118-127): rows are
consumed while they have at least three tokens and the first token
normalizes; only the first token is guarded, so `parse_row` may raise. -/
def consumeCont (pf : Nat → Nat) : List (List Tok) → Except Unit (List VRow)
  | [] => .ok []
  | extra :: rest =>
    if 3 ≤ extra.length then
      match normalize_date (extra.getD 0 []) with
      | .error _ => .ok []
      | .ok _ => do
        let r ← parse_row pf (extra.getD 0 []) (extra.getD 1 []) (extra.getD 2 [])
        let rs ← consumeCont pf rest
        .ok (r :: rs)
    else .ok []

/-- The line scan of `extract_schedule_for_ticker` (lines 103-129), after the
ticker has been upper-cased to `tU`. -/
def extractGo (pf : Nat → Nat) (tU : Tok) : List (List Tok) → Except Unit (List VRow)
  | [] => .ok []
  | line :: rest =>
    match firstIdx tU (line.map tokUpper) with
    | none => extractGo pf tU rest
    | some pos =>
      if pos + 4 ≤ line.length then
        let rec0 := line.getD (pos + 1) []
        let exd := line.getD (pos + 2) []
        let pay := line.getD (pos + 3) []
        if isOkE (normalize_date rec0) && isOkE (normalize_date exd) &&
            isOkE (normalize_date pay) then do
          let r ← parse_row pf rec0 exd pay
          let rs ← consumeCont pf rest
          .ok (r :: rs)
        else extractGo pf tU rest
      else extractGo pf tU rest

/-- Model of `extract_schedule_for_ticker` (`VanguardETF_cfg.py` lines 94-129,
`VanguardETF_arg.py` lines 67-98).  Lines are whitespace-token lists; the
result `.ok []` is the fall-through `return []`. -/
def extract_schedule_for_ticker (pf : Nat → Nat) (lines : List (List Tok)) (ticker : Tok) :
    Except Unit (List VRow) :=
  extractGo pf (tokUpper ticker) lines

end VG

namespace VanguardCfg

/-- Version of `parse_row` in `VanguardETF_cfg.py`: subtracts `US_BUSINESS_DAY`
(holiday-aware). -/
def parse_row : Tok → Tok → Tok → Except Unit VG.VRow := VG.parse_row Cal.prevBusinessDay

/-- Version of `extract_schedule_for_ticker` in `VanguardETF_cfg.py`. -/
def extract_schedule_for_ticker : List (List Tok) → Tok → Except Unit (List VG.VRow) :=
  VG.extract_schedule_for_ticker Cal.prevBusinessDay

end VanguardCfg

namespace VanguardArg

/-- Version of `parse_row` in `VanguardETF_arg.py`: subtracts plain `BDay(1)`
(weekends only). -/
def parse_row : Tok → Tok → Tok → Except Unit VG.VRow := VG.parse_row Cal.prevWeekday

/-- Version of `extract_schedule_for_ticker` in `VanguardETF_arg.py`. -/
def extract_schedule_for_ticker : List (List Tok) → Tok → Except Unit (List VG.VRow) :=
  VG.extract_schedule_for_ticker Cal.prevWeekday

end VanguardArg


/-- Model of the regex class `\s` (ASCII whitespace). -/
def isSpaceC (c : Nat) : Bool :=
  decide (c = 32 ∨ c = 9 ∨ c = 10 ∨ c = 13 ∨ c = 11 ∨ c = 12)

namespace Spdr

/-!
Embedding of `SPDR_ETF_cfg.py`.  Document lines are the stripped per-page
text lines (`extract_segment_by_ticker` lines 163-168); only the segment
location and the business-day derivation are claim-relevant, the CSV/ICS
writing is boundary code.
-/

/-- Model of `datetime.strptime(s, "%m/%d/%Y")` followed by `.date()`:
1-2 digit month in 1..12, slash, 1-2 digit day, slash, exactly four year
digits consuming the whole string, day valid for the month. -/
def strptimeMDY4 (t : Tok) : Option (Nat × Nat × Nat) :=
  let p1 := VG.takeDigits2 t
  match p1.2 with
  | 47 :: r2 =>
    let p2 := VG.takeDigits2 r2
    match p2.2 with
    | 47 :: y1 :: y2 :: y3 :: y4 :: [] =>
      if p1.1 ≠ [] && p2.1 ≠ [] && [y1, y2, y3, y4].all isDigitC then
        let mv := digitsVal p1.1
        let dv := digitsVal p2.1
        let yr := digitsVal [y1, y2, y3, y4]
        if 1 ≤ mv && mv ≤ 12 && 1 ≤ dv && dv ≤ Cal.daysInMonth yr mv then some (yr, mv, dv)
        else none
      else none
    | _ => none
  | _ => none

/-- Zero-padded two-digit rendering (`strftime` `%m` and `%d`). -/
def pad2 (n : Nat) : Tok := if n < 10 then [48, 48 + n] else natTok n

/-- Zero-padded four-digit rendering (`strftime` `%Y`). -/
def pad4 (n : Nat) : Tok := List.replicate (4 - (natTok n).length) 48 ++ natTok n

/-- Model of `get_business_day_before` (`SPDR_ETF_cfg.py` lines 54-56):
parse `%m/%d/%Y`, subtract one `us_bd` (holiday-aware custom business day),
format back as `%m/%d/%Y`.  `none` models the uncaught `strptime` failure. -/
def get_business_day_before (t : Tok) : Option Tok :=
  (strptimeMDY4 t).map fun ymd =>
    let prev := Cal.prevBusinessDay (Cal.daysFromCivil ymd.1 ymd.2.1 ymd.2.2)
    let c := Cal.civilFromDays prev
    pad2 c.2.1 ++ [47] ++ pad2 c.2.2 ++ [47] ++ pad4 c.1

/-- Occurrence of the ticker at position `p` of a line with word boundaries
on both sides: the model of a `re.search` hit of the pattern built at
line 170, for tickers made of word characters. -/
def wwAt (t l : Tok) (p : Nat) : Bool :=
  t.isPrefixOf (l.drop p) &&
  (p == 0 || !isWordC (l.getD (p - 1) 0)) &&
  (decide (l.length ≤ p + t.length) || !isWordC (l.getD (p + t.length) 0))

/-- Whether the whole-word pattern hits anywhere in the line. -/
def wwHit (t l : Tok) : Bool := (List.range (l.length + 1)).any (wwAt t l)

/-- The authoritative ticker line (line 171-175): the list comprehension
collects every matching line index and `ticker_idxs[-1]` takes the last. -/
def anchorIdx (lines : List Tok) (t : Tok) : Option Nat :=
  ((List.range lines.length).filter (fun i => wwHit t (lines.getD i []))).getLast?

/-- Downward scan from a start index for the first index satisfying `p`
(the `range(ticker_idx, -1, -1)` loop of lines 177-181). -/
def scanDown (p : Nat → Bool) : Nat → Option Nat
  | 0 => if p 0 then some 0 else none
  | i+1 => if p (i + 1) then some (i + 1) else scanDown p i

/-- The fixed header signature (line 179). -/
def headerTok : Tok := ch "Ex Date Record Date Payable Date"

/-- Drop a literal prefix, or fail. -/
def dropLit (lit l : Tok) : Option Tok :=
  if lit.isPrefixOf l then some (l.drop lit.length) else none

/-- Consume the tail of a whitespace run. -/
def eatSpacesTail : Tok → Tok
  | [] => []
  | c :: rest => if isSpaceC c then eatSpacesTail rest else c :: rest

/-- Consume one-or-more whitespace characters (regex `\s+`). -/
def eatSpaces1 : Tok → Option Tok
  | [] => none
  | c :: rest => if isSpaceC c then some (eatSpacesTail rest) else none

/-- Consume one `\d{1,2}/\d{1,2}/\d{4}` date token, returning the rest. -/
def matchD4 (t : Tok) : Option Tok :=
  let p1 := VG.takeDigits2 t
  if p1.1 == ([] : Tok) then none else
  match p1.2 with
  | 47 :: r2 =>
    let p2 := VG.takeDigits2 r2
    if p2.1 == ([] : Tok) then none else
    match p2.2 with
    | 47 :: a :: b :: c :: d :: rest =>
      if [a, b, c, d].all isDigitC then some rest else none
    | _ => none
  | _ => none

/-- Model of `FOOTER_RE.match` (lines 47-50): the literal excise phrase
followed by three whitespace-separated `M/D/YYYY` dates, anchored at the
line start. -/
def footerMatch (l : Tok) : Bool :=
  (((((dropLit (ch "Potential Excise Distribution") l).bind
    eatSpaces1).bind matchD4).bind
    (fun r => (eatSpaces1 r).bind matchD4)).bind
    (fun r => (eatSpaces1 r).bind matchD4)).isSome

/-- A segment-location failure of `extract_segment_by_ticker`: the three
early-return branches at lines 172-174, 182-184 and 191-193. -/
inductive LocErr where
  | notFound
  | headerNotFound
  | footerNotFound
deriving DecidableEq, Repr

/-- Model of the segment location of `extract_segment_by_ticker`
(`SPDR_ETF_cfg.py` lines 170-195): last whole-word ticker line, nearest
header at or before it, first footer after the header; returns the
half-open segment bounds `(header_idx, footer_idx)`. -/
def extract_segment_by_ticker (lines : List Tok) (ticker : Tok) : Except LocErr (Nat × Nat) :=
  match anchorIdx lines ticker with
  | none => .error .notFound
  | some ti =>
    match scanDown (fun i => headerTok.isPrefixOf (lines.getD i [])) ti with
    | none => .error .headerNotFound
    | some hi =>
      match (List.range' (hi + 1) (lines.length - (hi + 1))).find?
          (fun j => footerMatch (lines.getD j [])) with
      | none => .error .footerNotFound
      | some fi => .ok (hi, fi)

end Spdr


namespace IShare

/-!
Embedding of `iShareETF_arg.py`.  The extracted PDF text is one code-point
list (pages joined with newlines by `extract_text`); `parse_dates` works on
that raw text. -/

/-- An uncaught exception of `parse_dates`: the two `RuntimeError`s of
lines 31 and 35, the mismatch error of line 62, and a `ValueError` escaping
from `norm` (line 80). -/
inductive Err where
  | notFound
  | headerNotFound
  | blockMismatch
  | formatErr
deriving DecidableEq, Repr

/-- Model of `str.splitlines` (worker; newline-terminated input produces no
trailing empty line). -/
def splitLinesGo : List Nat → Tok → List Tok
  | [], acc => [acc.reverse]
  | c :: rest, acc =>
    if c == 10 then
      acc.reverse :: (match rest with | [] => [] | _ :: _ => splitLinesGo rest [])
    else splitLinesGo rest (c :: acc)

/-- Model of `str.splitlines` on newline-separated text. -/
def splitLines (t : Tok) : List Tok :=
  match t with
  | [] => []
  | _ :: _ => splitLinesGo t []

/-- Substring occurrence of `pat` at position `p` of `s`. -/
def occursAtB (pat s : Tok) (p : Nat) : Bool := pat.isPrefixOf (s.drop p)

/-- Model of `str.rfind` (line 29) and of the last `re.finditer` position
(lines 33-36; the search patterns cannot overlap themselves, so the
non-overlapping scan hits every occurrence): the greatest occurrence
position, `none` when the pattern does not occur. -/
def rfindSub (pat s : Tok) : Option Nat :=
  ((List.range (s.length + 1)).filter (occursAtB pat s)).getLast?

/-- The literal keyword located before the ticker (line 33). -/
def purposesTok : Tok := ch "Purposes"

/-- Everything after the first colon (`line.split(":", 1)[1]`). -/
def afterColon : Tok → Tok
  | [] => []
  | c :: rest => if c == 58 then rest else afterColon rest

/-- The three section labels of the label-block dialect (lines 43-51). -/
def declLabel : Tok := ch "DECLARATION DATE:"

/-- The ex-date/record-date section label. -/
def exLabel : Tok := ch "EX-DATE/RECORD DATE:"

/-- The pay-date section label. -/
def payLabel : Tok := ch "PAY DATE:"

/-- The current section while scanning label-block text (`cur`). -/
inductive Sec where
  | decl
  | exr
  | pay
deriving DecidableEq, Repr

/-- Scanner state of the block-collection loop (lines 39-59): the three
accumulated section lists, the current section, the line buffer. -/
structure BState where
  db : List Tok
  eb : List Tok
  pb : List Tok
  cur : Option Sec
  buf : List Tok
deriving Repr

/-- The flush step appending the space-joined buffer to the section list
selected by `cur`, guarded by `if cur and buf`. -/
def flush (st : BState) : BState :=
  match st.cur with
  | none => st
  | some s =>
    if st.buf == ([] : List Tok) then st
    else
      let j := List.intercalate [32] st.buf
      match s with
      | .decl => { st with db := st.db ++ [j] }
      | .exr => { st with eb := st.eb ++ [j] }
      | .pay => { st with pb := st.pb ++ [j] }

/-- One iteration of the block-collection loop (lines 42-57). -/
def collectStep (st : BState) (line : Tok) : BState :=
  if declLabel.isPrefixOf line then
    let st2 := flush st
    { st2 with cur := some .decl, buf := [afterColon line] }
  else if exLabel.isPrefixOf line then
    let st2 := flush st
    { st2 with cur := some .exr, buf := [afterColon line] }
  else if payLabel.isPrefixOf line then
    let st2 := flush st
    { st2 with cur := some .pay, buf := [afterColon line] }
  else
    if st.cur.isSome && line.any (fun c => !isSpaceC c) then { st with buf := st.buf ++ [line] }
    else st

/-- The block-collection loop with its final flush (lines 39-59): the
declaration, ex-record and pay section texts, one entry per label
occurrence. -/
def collectBlocks (ls : List Tok) : List Tok × List Tok × List Tok :=
  let fin := flush (ls.foldl collectStep ⟨[], [], [], none, []⟩)
  (fin.db, fin.eb, fin.pb)

/-- ASCII letter (the regex class `[A-Za-z]`). -/
def isAlphaC (c : Nat) : Bool := decide ((65 ≤ c ∧ c ≤ 90) ∨ (97 ≤ c ∧ c ≤ 122))

/-- Match length of the date regex `\d{1,2}-[A-Za-z]{3}-\d{2,4}` (line 70)
at the front of `s`, or `none`. -/
def matchDMY (s : Tok) : Option Nat :=
  match s with
  | [] => none
  | c0 :: rest0 =>
    if !isDigitC c0 then none else
    let dayPart : Option (Nat × Tok) :=
      match rest0 with
      | [] => none
      | c1 :: rest1 =>
        if isDigitC c1 then
          match rest1 with
          | 45 :: rest2 => some (2, rest2)
          | _ => none
        else if c1 == 45 then some (1, rest1)
        else none
    match dayPart with
    | none => none
    | some (dn, restA) =>
      match restA with
      | a1 :: a2 :: a3 :: 45 :: restB =>
        if isAlphaC a1 && isAlphaC a2 && isAlphaC a3 then
          let yn := ((restB.take 4).takeWhile isDigitC).length
          if 2 ≤ yn then some (dn + 1 + 3 + 1 + yn) else none
        else none
      | _ => none

/-- The left-to-right non-overlapping scan of `re.findall` (fuelled by the
remaining length so that the definition reduces in the kernel). -/
def findAllGo : Nat → Tok → List Tok
  | 0, _ => []
  | fuel+1, s =>
    match s with
    | [] => []
    | c :: rest =>
      match matchDMY (c :: rest) with
      | some n => (c :: rest).take n :: findAllGo fuel ((c :: rest).drop n)
      | none => findAllGo fuel rest

/-- Model of `dr.findall(block)` (lines 70-74): every date-shaped substring
of a section text, in document order. -/
def findAllDates (s : Tok) : List Tok := findAllGo s.length s

/-- Split a token at every dash (`tok.split("-")`, worker). -/
def splitDashGo : List Nat → Tok → List Tok
  | [], acc => [acc.reverse]
  | c :: rest, acc =>
    if c == 45 then acc.reverse :: splitDashGo rest [] else splitDashGo rest (c :: acc)

/-- Split a token at every dash (`tok.split("-")`). -/
def splitDash (t : Tok) : List Tok := splitDashGo t []

/-- The twelve `%b` month abbreviations, upper-cased (`strptime` matches
them case-insensitively). -/
def monthAbbrevs : List Tok :=
  [ch "JAN", ch "FEB", ch "MAR", ch "APR", ch "MAY", ch "JUN",
   ch "JUL", ch "AUG", ch "SEP", ch "OCT", ch "NOV", ch "DEC"]

/-- Month-abbreviation lookup (worker, 1-based). -/
def monthNumGo : List Tok → Nat → Tok → Option Nat
  | [], _, _ => none
  | a :: rest, k, mm => if a == mm then some k else monthNumGo rest (k + 1) mm

/-- Case-insensitive `%b` month lookup. -/
def monthNum (mm : Tok) : Option Nat := monthNumGo monthAbbrevs 1 (tokUpper mm)

/-- The two-digit-year expansion of `norm` (line 78-79): prefix `20`. -/
def expandY2 (yy0 : Tok) : Tok := if yy0.length = 2 then 50 :: 48 :: yy0 else yy0

/-- Model of `norm` (`iShareETF_arg.py` lines 76-80): split the token at
dashes, expand a two-digit year with the literal prefix `20`, then
`datetime.strptime(..., "%d-%b-%Y")`: a 1-2 digit day in 1..31, a month
abbreviation, exactly four year digits, the day valid for the month.
Returns the date as (year, month, day); `Except.error` models the uncaught
`ValueError`. -/
def norm (tok : Tok) : Except Unit (Nat × Nat × Nat) :=
  match splitDash tok with
  | [dd, mm, yy0] =>
    let yy := expandY2 yy0
    if dd ≠ [] && dd.length ≤ 2 && dd.all isDigitC then
      let dv := digitsVal dd
      if 1 ≤ dv && dv ≤ 31 then
        match monthNum mm with
        | none => .error ()
        | some mv =>
          if yy.length == 4 && yy.all isDigitC then
            let yv := digitsVal yy
            if 1 ≤ yv && dv ≤ Cal.daysInMonth yv mv then .ok (yv, mv, dv)
            else .error ()
          else .error ()
      else .error ()
    else .error ()
  | _ => .error ()

/-- One schedule record of the label-block dialect, with the three dates as
(year, month, day) triples (the source stores their `isoformat`). -/
structure IRow where
  declaration_date : Nat × Nat × Nat
  ex_date : Nat × Nat × Nat
  pay_date : Nat × Nat × Nat
deriving DecidableEq, Repr

/-- Normalize one zipped date triple into a row (lines 75-85). -/
def normRow (d e p : Tok) : Except Unit IRow := do
  let dv ← norm d
  let ev ← norm e
  let pv ← norm p
  .ok ⟨dv, ev, pv⟩

/-- The inner loop of lines 71-85 for one block triple: find all dates in
each section text and zip them positionally (`zip` truncates to the
shortest). -/
def rowsOfBlockTriple (b1 b2 b3 : Tok) : Except Unit (List IRow) :=
  let ds := findAllDates b1
  let es := findAllDates b2
  let ps := findAllDates b3
  (ds.zip (es.zip ps)).mapM (fun x => normRow x.1 x.2.1 x.2.2)

/-- Assemble rows from the (already length-matched, possibly truncated)
block lists, in document order. -/
def buildRows (d e p : List Tok) : Except Unit (List IRow) := do
  let rss ← (d.zip (e.zip p)).mapM (fun x => rowsOfBlockTriple x.1 x.2.1 x.2.2)
  .ok rss.flatten

/-- Python `l[-3:]` generalized: the last `n` elements. -/
def lastN (n : Nat) (l : List Tok) : List Tok := l.drop (l.length - n)

/-- Lines 61-86 of `parse_dates`: the block-count check, the cap at the
last three blocks, and row assembly. -/
def processBlock (ls : List Tok) : Except Err (List IRow) :=
  let b := collectBlocks ls
  if b.1.length = b.2.1.length ∧ b.2.1.length = b.2.2.length then
    let d := if 3 < b.1.length then lastN 3 b.1 else b.1
    let e := if 3 < b.1.length then lastN 3 b.2.1 else b.2.1
    let p := if 3 < b.1.length then lastN 3 b.2.2 else b.2.2
    (buildRows d e p).mapError fun _ => Err.formatErr
  else .error .blockMismatch

/-- The segment location of `parse_dates` (lines 29-37): last occurrence of
the marker, last `Purposes` before it, the lines in between. -/
def blockLines (text marker : Tok) : Except Err (List Tok) :=
  match rfindSub marker text with
  | none => .error .notFound
  | some im =>
    let snippet := text.take im
    match rfindSub purposesTok snippet with
    | none => .error .headerNotFound
    | some st => .ok (splitLines (snippet.drop st))

/-- Model of `parse_dates` (`iShareETF_arg.py` lines 28-86).  The caller
passes `marker = ticker + " "` (line 162). -/
def parse_dates (text marker : Tok) : Except Err (List IRow) :=
  match blockLines text marker with
  | .error e => .error e
  | .ok ls => processBlock ls

/-- The per-file date field of `write_ics` (lines 97-101). -/
inductive IField where
  | decl
  | ex
  | pay
deriving DecidableEq, Repr

/-- The field key used inside the UID string. -/
def fieldName : IField → Tok
  | .decl => ch "declaration_date"
  | .ex => ch "ex_date"
  | .pay => ch "pay_date"

/-- The date a field selects from a row. -/
def fieldDate (f : IField) (r : IRow) : Nat × Nat × Nat :=
  match f with
  | .decl => r.declaration_date
  | .ex => r.ex_date
  | .pay => r.pay_date

/-- Rendering `strftime` with format `%Y%m%d` of a date triple. -/
def yyyymmdd (d : Nat × Nat × Nat) : Tok := Spdr.pad4 d.1 ++ Spdr.pad2 d.2.1 ++ Spdr.pad2 d.2.2

/-- The `UID` values written by `write_ics` for one output file, one per
row, in order: the dash-joined f-string of ticker, field key and `%Y%m%d`
date (`iShareETF_arg.py` line 116). -/
def icsEventUids (ticker : Tok) (f : IField) (rows : List IRow) : List Tok :=
  rows.map fun r => ticker ++ [45] ++ fieldName f ++ [45] ++ yyyymmdd (fieldDate f r)

end IShare


/-- Formalization of the hypothesis of claim C3 for string-level documents:
every case-insensitive occurrence of the ticker inside the string is flanked
by a word character (i.e. the ticker occurs only as a proper substring of a
longer word token, as in SPYX for SPY). -/
def flankedOnlyStr (t s : Tok) : Bool :=
  (List.range (s.length + 1)).all fun p =>
    !((tokUpper t).isPrefixOf ((tokUpper s).drop p)) ||
    (decide (1 ≤ p) && isWordC ((tokUpper s).getD (p - 1) 0)) ||
    (decide (p + t.length < s.length) && isWordC ((tokUpper s).getD (p + t.length) 0))

/-- The right-flanked special case of the C3 hypothesis: every occurrence of
the ticker is immediately followed by a word character (a SPYX-style
occurrence; case-sensitive, for the label-block dialect whose matching does
not fold case). -/
def rightFlankedOnly (t s : Tok) : Bool :=
  (List.range (s.length + 1)).all fun p =>
    !(t.isPrefixOf (s.drop p)) ||
    (decide (p + t.length < s.length) && isWordC (s.getD (p + t.length) 0))

/-- The UID column of one ICS file when every event UID is a fresh draw from
the uuid4 stream `gen`, the file starting at draw `c0`. -/
def fileUids (gen : Nat → Tok) (c0 n : Nat) : List Tok :=
  (List.range n).map fun k => gen (c0 + k)

/-- The UID values generated by one emitter run: models the per-file,
per-row `uuid.uuid4()` calls of `csv_to_separate_ics`
(`VanguardETF_cfg.py` line 170, `VanguardETF_arg.py` line 124) and
`generate_ics_from_rows` (`SPDR_ETF_cfg.py` line 129), with `counts` the
number of events of each enabled output file in generation order and `gen`
the stream of generated identifiers. -/
def freshUidRun (gen : Nat → Tok) : Nat → List Nat → List Tok
  | _, [] => []
  | c0, n :: rest => fileUids gen c0 n ++ freshUidRun gen (c0 + n) rest

/-- Concrete column-position document: the same ticker on two lines, with
different date rows (two amendments). -/
def vooLine1 : List Tok := [ch "VOO", ch "1/1/25", ch "1/2/25", ch "1/3/25"]

/-- The later amendment line of the same document. -/
def vooLine2 : List Tok := [ch "VOO", ch "2/3/25", ch "2/4/25", ch "2/5/25"]

/-- A continuation row whose leading token is a date but whose second and
third tokens are not. -/
def vooBadCont : List Tok := [ch "1/6/25", ch "XX", ch "YY"]

/-- Concrete label-block document whose single block triple contains 2, 1
and 2 recognized dates respectively. -/
def txtMismatchedDates : Tok :=
  ch "Purposes\nDECLARATION DATE: 1-Jan-25 1-Feb-25\nEX-DATE/RECORD DATE: 2-Jan-25\nPAY DATE: 3-Jan-25 3-Feb-25\nSGOV x"

/-- Concrete label-block document whose single block triple contains four
dates in every section. -/
def txtFourTriples : Tok :=
  ch "Purposes\nDECLARATION DATE: 1-Jan-25 1-Feb-25 1-Mar-25 1-Apr-25\nEX-DATE/RECORD DATE: 2-Jan-25 2-Feb-25 2-Mar-25 2-Apr-25\nPAY DATE: 3-Jan-25 3-Feb-25 3-Mar-25 3-Apr-25\nSGOV x"

/-- Concrete label-block line list with three declaration labels, two
ex-record labels and three pay labels (scenario 4 of the spec). -/
def lsThreeTwoThree : List Tok :=
  [ch "DECLARATION DATE: 1-Jan-25", ch "EX-DATE/RECORD DATE: 2-Jan-25", ch "PAY DATE: 3-Jan-25",
   ch "DECLARATION DATE: 1-Feb-25", ch "PAY DATE: 3-Feb-25",
   ch "DECLARATION DATE: 1-Mar-25", ch "EX-DATE/RECORD DATE: 2-Mar-25", ch "PAY DATE: 3-Mar-25"]

/-- Concrete label-block line list with four complete label groups. -/
def lsFourGroups : List Tok :=
  [ch "DECLARATION DATE: 1-Jan-25", ch "EX-DATE/RECORD DATE: 2-Jan-25", ch "PAY DATE: 3-Jan-25",
   ch "DECLARATION DATE: 1-Feb-25", ch "EX-DATE/RECORD DATE: 2-Feb-25", ch "PAY DATE: 3-Feb-25",
   ch "DECLARATION DATE: 1-Mar-25", ch "EX-DATE/RECORD DATE: 2-Mar-25", ch "PAY DATE: 3-Mar-25",
   ch "DECLARATION DATE: 1-Apr-25", ch "EX-DATE/RECORD DATE: 2-Apr-25", ch "PAY DATE: 3-Apr-25"]

/-- Concrete label-block document text containing the ticker only inside
the longer token XSPY. -/
def txtXspy : Tok := ch "Purposes\nXSPY 1-Jan-25"


/-!
Sanity evaluations of the embedding on concrete inputs, including the
end-to-end scenarios of the specification.
-/

example : Cal.daysFromCivil 1970 1 1 = 719468 := by decide

example : Cal.wd (Cal.daysFromCivil 1970 1 1) = 1 := by decide

example : Cal.wd (Cal.daysFromCivil 2025 7 4) = 2 := by decide

example : Cal.civilFromDays (Cal.daysFromCivil 2025 7 4) = (2025, 7, 4) := by decide

example : Cal.civilFromDays (Cal.daysFromCivil 2024 2 29) = (2024, 2, 29) := by decide

example : Cal.isUSFederalHoliday (Cal.daysFromCivil 2025 7 4) = true := by decide

example : Cal.isUSFederalHoliday (Cal.daysFromCivil 2025 1 1) = true := by decide

example : Cal.isUSFederalHoliday (Cal.daysFromCivil 2025 1 20) = true := by decide

example : Cal.isUSFederalHoliday (Cal.daysFromCivil 2025 7 3) = false := by decide

example : Cal.prevBusinessDay (Cal.daysFromCivil 2025 7 7) = Cal.daysFromCivil 2025 7 3 := by decide

example : Cal.prevWeekday (Cal.daysFromCivil 2025 7 7) = Cal.daysFromCivil 2025 7 4 := by decide

example : Cal.prevBusinessDay (Cal.daysFromCivil 2025 1 2) = Cal.daysFromCivil 2024 12 31 := by decide

example : VG.normalize_date (ch "1/15/2025") = .ok (ch "1/15/25") := by decide

example : VG.normalize_date (ch "2025/1/15") = .ok (ch "1/15/25") := by decide

example : VG.normalize_date (ch "2025-1-15") = .ok (ch "1/15/25") := by decide

example : VG.normalize_date (ch "01/05/25") = .ok (ch "1/5/25") := by decide

example : VG.normalize_date (ch "13/45/25") = .ok (ch "13/45/25") := by decide

example : VG.normalize_date (ch "abc") = .error () := by decide

example : VG.normalize_date (ch "2025/1234/5") = .ok (ch "1234/5/25") := by decide

example : VG.normalize_date (ch "1234/5/25") = .ok (ch "5/25/34") := by decide

example : VG.normalize_date (ch "abcd/1/2") = .ok (ch "1/2/cd") := by decide

example : VG.strptimeMDY2 (ch "1/15/25") = some (2025, 1, 15) := by decide

example : VG.strptimeMDY2 (ch "13/45/25") = none := by decide

example : VG.strptimeMDY2 (ch "2/29/25") = none := by decide

example : VG.strptimeMDY2 (ch "2/29/24") = some (2024, 2, 29) := by decide

example :
    (VanguardCfg.parse_row (ch "3/20/25") (ch "3/21/25") (ch "4/15/25")).map VG.VRow.exMinus1 =
      .ok (ch "3/20/25") := by decide

example :
    (VanguardCfg.parse_row (ch "3/20/25") (ch "3/21/25") (ch "4/15/25")).map VG.VRow.quarter =
      .ok (ch "Q1") := by decide

example : Spdr.get_business_day_before (ch "07/07/2025") = some (ch "07/03/2025") := by decide

example : Spdr.get_business_day_before (ch "1/2/2025") = some (ch "12/31/2024") := by decide

example : Spdr.get_business_day_before (ch "13/45/2025") = none := by decide

example : Spdr.wwHit (ch "SPY") (ch "SPYX 1/1/2025") = false := by decide

example : Spdr.wwHit (ch "SPY") (ch "XSPY 1/1/2025") = false := by decide

example : Spdr.wwHit (ch "SPY") (ch "a SPY, b") = true := by decide

example : Spdr.anchorIdx [ch "x", ch "a SPY b", ch "SPY c"] (ch "SPY") = some 2 := by decide

example :
    Spdr.footerMatch (ch "Potential Excise Distribution 12/19/2025 12/22/2025 12/24/2025") =
      true := by decide

example : Spdr.footerMatch (ch "Potential Excise Distribution") = false := by decide

example :
    Spdr.extract_segment_by_ticker
      [ch "Ex Date Record Date Payable Date", ch "a SPY b",
       ch "Potential Excise Distribution 12/19/2025 12/22/2025 12/24/2025"]
      (ch "SPY") = .ok (0, 2) := by decide

example : Spdr.extract_segment_by_ticker [ch "SPYX only"] (ch "SPY") = .error .notFound := by
  decide

example : IShare.splitLines (ch "a\n\nb") = [ch "a", [], ch "b"] := by decide

example : IShare.splitLines (ch "a\n") = [ch "a"] := by decide

example : IShare.norm (ch "5-Jan-25") = .ok (2025, 1, 5) := by decide

example : IShare.norm (ch "05-JAN-2025") = .ok (2025, 1, 5) := by decide

example : IShare.norm (ch "31-Feb-25") = .error () := by decide

example : IShare.norm (ch "5-Foo-25") = .error () := by decide

example : IShare.findAllDates (ch "x 5-Jan-25 and 12-Feb-2026 y") =
    [ch "5-Jan-25", ch "12-Feb-2026"] := by decide

example : IShare.rfindSub (ch "SPY ") (ch "Purposes\nXSPY 1-Jan-25") = some 10 := by decide

example :
    IShare.parse_dates (ch "no ticker here") (ch "SGOV ") = .error .notFound := by decide

example :
    IShare.parse_dates txtMismatchedDates (ch "SGOV ") =
      .ok [⟨(2025, 1, 1), (2025, 1, 2), (2025, 1, 3)⟩] := by decide

example :
    (IShare.parse_dates txtFourTriples (ch "SGOV ")).map List.length = .ok 4 := by decide

example :
    (IShare.collectBlocks lsThreeTwoThree).1.length = 3 ∧
    (IShare.collectBlocks lsThreeTwoThree).2.1.length = 2 ∧
    (IShare.collectBlocks lsThreeTwoThree).2.2.length = 3 := by decide

example : IShare.processBlock lsThreeTwoThree = .error .blockMismatch := by decide

example : (IShare.collectBlocks lsFourGroups).1.length = 4 := by decide

example : IShare.parse_dates txtXspy (ch "SPY ") = .ok [] := by decide

example : flankedOnlyStr (ch "SPY") (ch "Purposes\nXSPY 1-Jan-25") = true := by decide

example : rightFlankedOnly (ch "SPY ") (ch "some SPYX text") = true := by decide

example :
    (VanguardCfg.extract_schedule_for_ticker [vooLine1, vooLine2] (ch "VOO")).map
      (List.map VG.VRow.record) = .ok [ch "1/1/25"] := by decide

example :
    (VanguardCfg.extract_schedule_for_ticker [vooLine2] (ch "VOO")).map
      (List.map VG.VRow.record) = .ok [ch "2/3/25"] := by decide

example :
    VanguardCfg.extract_schedule_for_ticker [vooLine1, vooBadCont] (ch "VOO") = .error () := by
  decide

example :
    VanguardArg.extract_schedule_for_ticker [vooLine1, vooBadCont] (ch "VOO") = .error () := by
  decide

example :
    (VanguardArg.parse_row (ch "7/1/25") (ch "7/7/25") (ch "7/8/25")).map VG.VRow.exMinus1 =
      .ok (ch "7/4/25") := by decide

example :
    (VanguardCfg.parse_row (ch "7/1/25") (ch "7/7/25") (ch "7/8/25")).map VG.VRow.exMinus1 =
      .ok (ch "7/3/25") := by decide

example :
    (VanguardCfg.extract_schedule_for_ticker [[ch "voo", ch "1/1/25", ch "1/2/25", ch "1/3/25"]]
      (ch "VOO")).map List.length = .ok 1 := by decide

example :
    IShare.icsEventUids (ch "SGOV") .ex
      [⟨(2025, 1, 1), (2025, 1, 2), (2025, 1, 3)⟩, ⟨(2025, 2, 1), (2025, 1, 2), (2025, 2, 3)⟩] =
      [ch "SGOV-ex_date-20250102", ch "SGOV-ex_date-20250102"] := by decide

example : natTok 0 = ch "0" := by decide

example : natTok 1234 = ch "1234" := by decide

example : pyInt? (ch "0012") = some 12 := by decide

example : tokUpper (ch "voo") = ch "VOO" := by decide

theorem upC_upC (c : Nat) : upC (upC c) = upC c := by
  by_cases h : 97 ≤ c ∧ c ≤ 122
  · have h1 : upC c = c - 32 := if_pos h
    have hno : ¬(97 ≤ c - 32 ∧ c - 32 ≤ 122) := by omega
    have h2 : upC (c - 32) = c - 32 := if_neg hno
    rw [h1, h2]
  · have h1 : upC c = c := if_neg h
    rw [h1, h1]

theorem isWordC_upC (c : Nat) : isWordC (upC c) = isWordC c := by
  by_cases h : 97 ≤ c ∧ c ≤ 122
  · have h1 : upC c = c - 32 := if_pos h
    rw [h1]
    unfold isWordC
    rw [decide_eq_decide]
    omega
  · have h1 : upC c = c := if_neg h
    rw [h1]

theorem tokUpper_idem (t : Tok) : tokUpper (tokUpper t) = tokUpper t := by
  induction t with
  | nil => rfl
  | cons c cs ih =>
    simp only [tokUpper, List.map_cons] at *
    rw [upC_upC]
    exact congrArg _ (by simpa [tokUpper] using ih)

theorem tokUpper_length (t : Tok) : (tokUpper t).length = t.length := by
  simp [tokUpper]

/-- The last element of a filtered initial-segment list is the greatest
index satisfying the predicate. -/
theorem filterRangeLastMax (p : Nat → Bool) :
    ∀ n i, ((List.range n).filter p).getLast? = some i →
      p i = true ∧ ∀ j, j < n → p j = true → j ≤ i := by
  intro n
  induction n with
  | zero =>
    intro i h
    simp [List.range_zero] at h
  | succ n ih =>
    intro i h
    rw [List.range_succ, List.filter_append] at h
    by_cases hp : p n = true
    · rw [List.getLast?_append] at h
      simp only [List.filter_cons, hp, if_pos, List.filter_nil] at h
      have hi : i = n := by
        simp only [List.getLast?_singleton, Option.or_some] at h
        exact (Option.some.injEq _ _).mp h.symm
      subst hi
      exact ⟨hp, fun j hj _ => by omega⟩
    · have hf : List.filter p [n] = [] := by
        simp [List.filter_cons, hp]
      rw [hf, List.append_nil] at h
      obtain ⟨h1, h2⟩ := ih i h
      refine ⟨h1, fun j hj hpj => ?_⟩
      rcases Nat.lt_or_ge j n with hlt | hge
      · exact h2 j hlt hpj
      · have : j = n := by omega
        subst this
        exact absurd hpj hp

/-- If no index below `n` satisfies the predicate, the filtered range is
empty. -/
theorem filterRangeNone (p : Nat → Bool) (n : Nat) (h : ∀ j, j < n → p j = false) :
    ((List.range n).filter p).getLast? = none := by
  have : (List.range n).filter p = [] := by
    rw [List.filter_eq_nil_iff]
    intro a ha
    have := List.mem_range.mp ha
    simp [h a this]
  rw [this]
  rfl

/-- Claim C1 (code bug evaluation): for the ex-date 7/7/25 (the Monday after
Independence Day 2025), `parse_row` of `VanguardETF_arg.py` derives the
ex-date-minus-one 7/4/25, which is a weekday but a configured US federal
holiday; the holiday-aware variants (`VanguardETF_cfg.py` `parse_row` and
`SPDR_ETF_cfg.py` `get_business_day_before`) derive 7/3/25 as the claim
requires. -/
theorem c1_bday_holiday_eval :
    (VanguardArg.parse_row (ch "7/1/25") (ch "7/7/25") (ch "7/8/25")).map VG.VRow.exMinus1 =
      .ok (ch "7/4/25") ∧
    Cal.isUSFederalHoliday (Cal.daysFromCivil 2025 7 4) = true ∧
    Cal.isWeekendD (Cal.daysFromCivil 2025 7 4) = false ∧
    VG.strptimeMDY2 (ch "7/4/25") = some (2025, 7, 4) ∧
    (VanguardCfg.parse_row (ch "7/1/25") (ch "7/7/25") (ch "7/8/25")).map VG.VRow.exMinus1 =
      .ok (ch "7/3/25") ∧
    Spdr.get_business_day_before (ch "07/07/2025") = some (ch "07/03/2025") :=
  ⟨by decide, by decide, by decide, by decide, by decide, by decide⟩

/-- Claim C2 counterexample: in the column-position dialect the ticker VOO
occurs on both lines of the document, the greatest occurrence position is
line 1, yet the extracted schedule is the one anchored at line 0 (record
date 1/1/25); the schedule anchored at the last occurrence would start at
record date 2/3/25. -/
theorem c2_first_occurrence_counterexample :
    VG.lineHit vooLine2 (ch "VOO") = true ∧
    (VanguardCfg.extract_schedule_for_ticker [vooLine1, vooLine2] (ch "VOO")).map
      (List.map VG.VRow.record) = .ok [ch "1/1/25"] ∧
    (VanguardCfg.extract_schedule_for_ticker [vooLine2] (ch "VOO")).map
      (List.map VG.VRow.record) = .ok [ch "2/3/25"] :=
  ⟨by decide, by decide, by decide⟩

/-- Claim C2 (amended): the last occurrence is authoritative in the
month-row dialect (`SPDR_ETF_cfg.py`, `ticker_idxs[-1]` at line 175) and in
the label-block dialect (`iShareETF_arg.py`, `text.rfind` at line 29): the
chosen anchor is the greatest matching position. -/
theorem c2_last_occurrence_amended :
    (∀ (lines : List Tok) (t : Tok) (i : Nat), Spdr.anchorIdx lines t = some i →
        Spdr.wwHit t (lines.getD i []) = true ∧
        ∀ j, j < lines.length → Spdr.wwHit t (lines.getD j []) = true → j ≤ i) ∧
    (∀ (text marker : Tok) (p : Nat), IShare.rfindSub marker text = some p →
        IShare.occursAtB marker text p = true ∧
        ∀ q, q ≤ text.length → IShare.occursAtB marker text q = true → q ≤ p) := by
  constructor
  · intro lines t i h
    exact filterRangeLastMax _ _ _ h
  · intro text marker p h
    obtain ⟨h1, h2⟩ := filterRangeLastMax _ _ _ h
    exact ⟨h1, fun q hq hocc => h2 q (by omega) hocc⟩

/-- Witness for the amended claim C2 at a concrete document. -/
theorem c2_last_occurrence_witness :
    Spdr.wwHit (ch "SPY") ([ch "x", ch "a SPY b"].getD 1 []) = true :=
  (c2_last_occurrence_amended.1 [ch "x", ch "a SPY b"] (ch "SPY") 1 (by decide)).1

/-- Claim C3 counterexample: the label-block dialect matches the ticker by
`rfind` of the substring ticker-plus-space, so a document whose every
(case-insensitive) ticker occurrence sits inside the longer token XSPY is
nevertheless matched (at position 10), and `parse_dates` does not fail with
the not-found error — it returns an (empty) schedule. -/
theorem c3_substring_matched_counterexample :
    flankedOnlyStr (ch "SPY") txtXspy = true ∧
    IShare.rfindSub (ch "SPY ") txtXspy = some 10 ∧
    IShare.parse_dates txtXspy (ch "SPY ") = .ok [] :=
  ⟨by decide, by decide, by decide⟩

/-- No whole-word hit exists at any position of a line in which every
case-insensitive occurrence of the (nonempty) ticker is flanked by a word
character. -/
theorem wwAt_false_of_flanked (t s : Tok) (hne : t ≠ [])
    (hf : flankedOnlyStr t s = true) (p : Nat) : Spdr.wwAt t s p = false := by
  apply Bool.eq_false_iff.mpr
  intro hww
  unfold Spdr.wwAt at hww
  simp only [Bool.and_eq_true] at hww
  obtain ⟨⟨hpre, hleft⟩, hright⟩ := hww
  have hpre2 : t <+: s.drop p := List.isPrefixOf_iff_prefix.mp hpre
  have htlen : 0 < t.length := List.length_pos.mpr hne
  have hdlen : (s.drop p).length = s.length - p := List.length_drop ..
  have hle : t.length ≤ s.length - p := by
    have h1 := hpre2.length_le
    rw [hdlen] at h1
    exact h1
  have hp : p < s.length := by omega
  have hfp := (List.all_eq_true.mp hf) p (List.mem_range.mpr (by omega))
  have hup : (tokUpper t).isPrefixOf ((tokUpper s).drop p) = true := by
    apply List.isPrefixOf_iff_prefix.mpr
    have hmap : tokUpper t <+: tokUpper (s.drop p) := hpre2.map upC
    rw [show tokUpper (s.drop p) = (tokUpper s).drop p from List.map_drop ..] at hmap
    exact hmap
  rw [hup] at hfp
  simp only [Bool.not_true, Bool.false_or, Bool.or_eq_true, Bool.and_eq_true,
    decide_eq_true_eq] at hfp
  have hulen : (tokUpper s).length = s.length := tokUpper_length s
  rcases hfp with ⟨h1p, hword⟩ | ⟨hplen, hword⟩
  · have hidx : p - 1 < s.length := by omega
    have hgu : (tokUpper s).getD (p - 1) 0 = upC (s.getD (p - 1) 0) := by
      rw [List.getD_eq_getElem _ _ (by omega), List.getD_eq_getElem _ _ hidx]
      exact List.getElem_map ..
    rw [hgu, isWordC_upC] at hword
    have hp0 : (p == 0) = false := by
      simp only [beq_eq_false_iff_ne]
      omega
    rw [hp0, Bool.false_or, Bool.not_eq_true'] at hleft
    rw [hword] at hleft
    cases hleft
  · have hidx : p + t.length < s.length := hplen
    have hgu : (tokUpper s).getD (p + t.length) 0 = upC (s.getD (p + t.length) 0) := by
      rw [List.getD_eq_getElem _ _ (by omega), List.getD_eq_getElem _ _ hidx]
      exact List.getElem_map ..
    rw [hgu, isWordC_upC] at hword
    have hd : (decide (s.length ≤ p + t.length)) = false := by
      simp only [decide_eq_false_iff_not]
      omega
    rw [hd, Bool.false_or, Bool.not_eq_true'] at hright
    rw [hword] at hright
    cases hright

/-- A token in which every case-insensitive occurrence of the (nonempty)
ticker is flanked by a word character cannot upper-case to the upper-cased
ticker itself. -/
theorem tokUpper_ne_of_flanked (t tok : Tok) (_hne : t ≠ [])
    (hf : flankedOnlyStr t tok = true) : tokUpper tok ≠ tokUpper t := by
  intro heq
  have h0 := (List.all_eq_true.mp hf) 0 (List.mem_range.mpr (by omega))
  have hlen : tok.length = t.length := by
    have h1 : (tokUpper tok).length = (tokUpper t).length := by rw [heq]
    rw [tokUpper_length, tokUpper_length] at h1
    exact h1
  have hup : (tokUpper t).isPrefixOf ((tokUpper tok).drop 0) = true := by
    rw [List.drop_zero, heq]
    exact List.isPrefixOf_iff_prefix.mpr (List.prefix_refl _)
  rw [hup] at h0
  have hd1 : (decide (1 ≤ 0)) = false := by decide
  have hd2 : (decide (0 + t.length < tok.length)) = false := by
    simp only [decide_eq_false_iff_not]
    omega
  rw [hd1, hd2] at h0
  simp at h0

/-- Python `list.index` misses when no element equals the key. -/
theorem firstIdx_none_of_ne (x : Tok) :
    ∀ l : List Tok, (∀ y ∈ l, y ≠ x) → VG.firstIdx x l = none := by
  intro l
  induction l with
  | nil => intro _; rfl
  | cons y rest ih =>
    intro h
    have hcond : ¬((y == x) = true) := fun hb =>
      h y (List.mem_cons_self y rest) (beq_iff_eq.mp hb)
    simp only [VG.firstIdx]
    rw [if_neg hcond, ih (fun z hz => h z (List.mem_cons_of_mem y hz))]
    rfl

/-- The line scan returns the empty schedule when no line contains the
upper-cased ticker token. -/
theorem extractGo_ok_nil_of_miss (pf : Nat → Nat) (tU : Tok) :
    ∀ lines : List (List Tok),
      (∀ line ∈ lines, VG.firstIdx tU (line.map tokUpper) = none) →
      VG.extractGo pf tU lines = .ok [] := by
  intro lines
  induction lines with
  | nil => intro _; rfl
  | cons line rest ih =>
    intro h
    have hm := h line (List.mem_cons_self line rest)
    simp only [VG.extractGo, hm]
    exact ih (fun l hl => h l (List.mem_cons_of_mem line hl))

/-- The marker ticker-plus-space cannot occur in text in which every
occurrence of the ticker is immediately followed by a word character. -/
theorem occursAt_false_of_rightFlanked (t text : Tok)
    (hrf : rightFlankedOnly t text = true) (p : Nat) :
    IShare.occursAtB (t ++ [32]) text p = false := by
  apply Bool.eq_false_iff.mpr
  intro hocc
  unfold IShare.occursAtB at hocc
  have hp2 : (t ++ [32]) <+: text.drop p := List.isPrefixOf_iff_prefix.mp hocc
  have hlen32 : (t ++ [32]).length ≤ (text.drop p).length := hp2.length_le
  have hdl : (text.drop p).length = text.length - p := List.length_drop ..
  have haplen : (t ++ [32]).length = t.length + 1 := by simp
  have hlt : p + t.length < text.length := by omega
  have htpre : t <+: text.drop p := (List.prefix_append t [32]).trans hp2
  have hchar : text[p + t.length]? = some 32 := by
    have h1 : (text.drop p)[t.length]? = some 32 := by
      obtain ⟨r, hr⟩ := hp2
      rw [← hr, List.getElem?_append_left (by simp)]
      simp
    rw [← List.getElem?_drop]
    exact h1
  have hfp := (List.all_eq_true.mp hrf) p (List.mem_range.mpr (by omega))
  have hup : t.isPrefixOf (text.drop p) = true := List.isPrefixOf_iff_prefix.mpr htpre
  rw [hup] at hfp
  simp only [Bool.not_true, Bool.false_or, Bool.and_eq_true, decide_eq_true_eq] at hfp
  have hword := hfp.2
  have hgd : text.getD (p + t.length) 0 = 32 := by
    rw [List.getD_eq_getElem?_getD, hchar]
    rfl
  rw [hgd] at hword
  exact absurd hword (by decide)

/-- Claim C3 (amended): whole-token rejection holds in the month-row
dialect (word-boundary regex) and in the column-position dialect
(whitespace-token equality): a document in which every case-insensitive
occurrence of the ticker is flanked by a word character yields the
not-found result resp. the empty schedule.  In the label-block dialect the
match is a substring search for ticker-plus-space, so only occurrences
followed by a word character (as in SPYX) are rejected; a longer token
ending in the ticker (as in XSPY) is matched, as the counterexample shows. -/
theorem c3_whole_token_amended :
    (∀ (lines : List Tok) (t : Tok), t ≠ [] →
        (∀ l ∈ lines, flankedOnlyStr t l = true) →
        Spdr.extract_segment_by_ticker lines t = .error .notFound) ∧
    (∀ (pf : Nat → Nat) (lines : List (List Tok)) (t : Tok), t ≠ [] →
        (∀ line ∈ lines, ∀ tok ∈ line, flankedOnlyStr t tok = true) →
        VG.extract_schedule_for_ticker pf lines t = .ok []) ∧
    (∀ (text t : Tok), rightFlankedOnly t text = true →
        IShare.parse_dates text (t ++ [32]) = .error .notFound) := by
  refine ⟨?_, ?_, ?_⟩
  · intro lines t hne hf
    have hanchor : Spdr.anchorIdx lines t = none := by
      unfold Spdr.anchorIdx
      apply filterRangeNone
      intro j hj
      have hmem : lines.getD j [] ∈ lines := by
        rw [List.getD_eq_getElem _ _ hj]
        exact List.getElem_mem hj
      apply Bool.eq_false_iff.mpr
      intro hhit
      unfold Spdr.wwHit at hhit
      rw [List.any_eq_true] at hhit
      obtain ⟨p, _, hp⟩ := hhit
      rw [wwAt_false_of_flanked t _ hne (hf _ hmem) p] at hp
      cases hp
    unfold Spdr.extract_segment_by_ticker
    rw [hanchor]
  · intro pf lines t hne hf
    unfold VG.extract_schedule_for_ticker
    apply extractGo_ok_nil_of_miss
    intro line hline
    apply firstIdx_none_of_ne
    intro y hy
    rw [List.mem_map] at hy
    obtain ⟨tok, htok, rfl⟩ := hy
    exact tokUpper_ne_of_flanked t tok hne (hf line hline tok htok)
  · intro text t hrf
    have hnone : IShare.rfindSub (t ++ [32]) text = none := by
      unfold IShare.rfindSub
      apply filterRangeNone
      intro p _
      exact occursAt_false_of_rightFlanked t text hrf p
    unfold IShare.parse_dates IShare.blockLines
    rw [hnone]

/-- Witness for the amended claim C3 at SPYX-style concrete documents. -/
theorem c3_whole_token_witness :
    Spdr.extract_segment_by_ticker [ch "SPYX 1/1/2025"] (ch "SPY") = .error .notFound ∧
    VG.extract_schedule_for_ticker Cal.prevBusinessDay [[ch "SPYX", ch "1/1/25"]] (ch "SPY") =
      .ok [] ∧
    IShare.parse_dates (ch "Purposes SPYX 1-Jan-25") (ch "SPY" ++ [32]) = .error .notFound :=
  ⟨c3_whole_token_amended.1 [ch "SPYX 1/1/2025"] (ch "SPY") (by decide) (by decide),
   c3_whole_token_amended.2.1 Cal.prevBusinessDay [[ch "SPYX", ch "1/1/25"]] (ch "SPY")
     (by decide) (by decide),
   c3_whole_token_amended.2.2 (ch "Purposes SPYX 1-Jan-25") (ch "SPY") (by decide)⟩

/-- Claim C4 counterexample: a label-block document whose three sections
contain 2, 1 and 2 recognized date substrings (one label occurrence each):
the code compares label-block counts, not date counts, so extraction
succeeds with one zip-truncated record instead of failing with
`BlockCountMismatchError`. -/
theorem c4_date_count_counterexample :
    (IShare.blockLines txtMismatchedDates (ch "SGOV ")).map
        (fun ls =>
          ((IShare.collectBlocks ls).1.map fun b => (IShare.findAllDates b).length) ++
          ((IShare.collectBlocks ls).2.1.map fun b => (IShare.findAllDates b).length) ++
          ((IShare.collectBlocks ls).2.2.map fun b => (IShare.findAllDates b).length)) =
      .ok [2, 1, 2] ∧
    IShare.parse_dates txtMismatchedDates (ch "SGOV ") =
      .ok [⟨(2025, 1, 1), (2025, 1, 2), (2025, 1, 3)⟩] :=
  ⟨by decide, by decide⟩

/-- Claim C4 (amended): extraction fails with `BlockCountMismatchError`
exactly when the numbers of labelled section blocks disagree (the
`len(decl_blocks)==len(ex_blocks)==len(pay_blocks)` check of line 61);
zero records are emitted in that case. -/
theorem c4_block_mismatch_amended :
    ∀ ls : List Tok,
      ¬((IShare.collectBlocks ls).1.length = (IShare.collectBlocks ls).2.1.length ∧
        (IShare.collectBlocks ls).2.1.length = (IShare.collectBlocks ls).2.2.length) →
      IShare.processBlock ls = .error .blockMismatch := by
  intro ls h
  unfold IShare.processBlock
  exact if_neg h

/-- Witness for the amended claim C4: scenario 4 of the spec (three
declaration labels, two ex-record labels, three pay labels). -/
theorem c4_block_mismatch_witness :
    IShare.processBlock lsThreeTwoThree = .error .blockMismatch :=
  c4_block_mismatch_amended lsThreeTwoThree (by decide)

/-- Claim C5 counterexample: a label-block document with four
declaration/ex/pay date triples inside a single label group: the cap at
three applies to label blocks, not triples, so all four records are
emitted — the schedule exceeds three records and the oldest triple is
kept. -/
theorem c5_four_rows_counterexample :
    (IShare.parse_dates txtFourTriples (ch "SGOV ")).map List.length = .ok 4 ∧
    (IShare.parse_dates txtFourTriples (ch "SGOV ")).map
        (List.map IShare.IRow.declaration_date) =
      .ok [(2025, 1, 1), (2025, 2, 1), (2025, 3, 1), (2025, 4, 1)] :=
  ⟨by decide, by decide⟩

/-- Claim C5 (amended): when the label-block section counts agree and
exceed three, only the last three labelled blocks contribute to the output
(the slicing of lines 64-67); the number of emitted records is capped only
through that block cap. -/
theorem c5_last_blocks_amended :
    ∀ (ls : List Tok) (rows : List IShare.IRow),
      (IShare.collectBlocks ls).1.length = (IShare.collectBlocks ls).2.1.length →
      (IShare.collectBlocks ls).2.1.length = (IShare.collectBlocks ls).2.2.length →
      3 < (IShare.collectBlocks ls).1.length →
      IShare.processBlock ls = .ok rows →
      IShare.buildRows (IShare.lastN 3 (IShare.collectBlocks ls).1)
        (IShare.lastN 3 (IShare.collectBlocks ls).2.1)
        (IShare.lastN 3 (IShare.collectBlocks ls).2.2) = .ok rows := by
  intro ls rows h1 h2 h3 h
  simp only [IShare.processBlock] at h
  rw [if_pos ⟨h1, h2⟩, if_pos h3, if_pos h3, if_pos h3] at h
  revert h
  cases hb : IShare.buildRows (IShare.lastN 3 (IShare.collectBlocks ls).1)
      (IShare.lastN 3 (IShare.collectBlocks ls).2.1)
      (IShare.lastN 3 (IShare.collectBlocks ls).2.2) with
  | ok r =>
    intro h
    simp only [Except.mapError] at h
    cases h
    rfl
  | error e =>
    intro h
    simp only [Except.mapError] at h
    cases h

/-- Witness for the amended claim C5: four complete label groups; the
emitted rows are those of the last three groups. -/
theorem c5_last_blocks_witness :
    IShare.buildRows (IShare.lastN 3 (IShare.collectBlocks lsFourGroups).1)
      (IShare.lastN 3 (IShare.collectBlocks lsFourGroups).2.1)
      (IShare.lastN 3 (IShare.collectBlocks lsFourGroups).2.2) =
      .ok [⟨(2025, 2, 1), (2025, 2, 2), (2025, 2, 3)⟩,
           ⟨(2025, 3, 1), (2025, 3, 2), (2025, 3, 3)⟩,
           ⟨(2025, 4, 1), (2025, 4, 2), (2025, 4, 3)⟩] :=
  c5_last_blocks_amended lsFourGroups _ (by decide) (by decide) (by decide) (by decide)

/-- Claim C6 (code bug evaluation): a continuation row whose leading token
1/6/25 parses as a date but whose second and third tokens do not makes
`extract_schedule_for_ticker` raise an uncaught `ValueError` (from the
unguarded `parse_row` call at line 125 resp. 94) in both Vanguard variants,
instead of dropping the line or terminating the block. -/
theorem c6_continuation_uncaught_eval :
    VG.normalize_date (ch "1/6/25") = .ok (ch "1/6/25") ∧
    VG.normalize_date (ch "XX") = .error () ∧
    VanguardCfg.extract_schedule_for_ticker [vooLine1, vooBadCont] (ch "VOO") = .error () ∧
    VanguardArg.extract_schedule_for_ticker [vooLine1, vooBadCont] (ch "VOO") = .error () :=
  ⟨by decide, by decide, by decide, by decide⟩

/-- Claim C7 counterexample: `normalize_date` of the column-position dialect
checks only the digit shape of a token: 13/45/25 (month 13, day 45) is
accepted and returned unchanged, the own `strptime` validator of the program
rejects it, and a schedule record whose record-date field holds 13/45/25 is
emitted. -/
theorem c7_shape_only_counterexample :
    VG.normalize_date (ch "13/45/25") = .ok (ch "13/45/25") ∧
    VG.strptimeMDY2 (ch "13/45/25") = none ∧
    (VanguardCfg.extract_schedule_for_ticker
        [[ch "VOO", ch "13/45/25", ch "1/2/25", ch "1/3/25"]] (ch "VOO")).map
      (List.map VG.VRow.record) = .ok [ch "13/45/25"] :=
  ⟨by decide, by decide, by decide⟩

/-- The month lookup returns a 1-based index into the abbreviation table. -/
theorem monthNumGo_bound :
    ∀ (l : List Tok) (k : Nat) (mm : Tok) (m : Nat),
      IShare.monthNumGo l k mm = some m → k ≤ m ∧ m < k + l.length := by
  intro l
  induction l with
  | nil =>
    intro k mm m h
    cases h
  | cons a rest ih =>
    intro k mm m h
    simp only [IShare.monthNumGo] at h
    split at h
    · cases h
      constructor
      · omega
      · simp only [List.length_cons]
        omega
    · have hb := ih (k + 1) mm m h
      simp only [List.length_cons]
      omega

theorem exceptBindOk {ε α β : Type} (a : α) (f : α → Except ε β) :
    Except.bind (.ok a) f = f a := rfl

/-- Parsing `strptime` with format month-day-two-digit-year only accepts calendar
dates: the month is in 1..12 and the day valid for the month. -/
theorem strptimeMDY2_bounds (s : Tok) (ymd : Nat × Nat × Nat)
    (h : VG.strptimeMDY2 s = some ymd) :
    1 ≤ ymd.2.1 ∧ ymd.2.1 ≤ 12 ∧ 1 ≤ ymd.2.2 ∧ ymd.2.2 ≤ Cal.daysInMonth ymd.1 ymd.2.1 := by
  simp only [VG.strptimeMDY2] at h
  split at h
  · split at h
    · split at h
      · split at h
        · cases h
          rename_i hbounds
          simp only [Bool.and_eq_true, decide_eq_true_eq] at hbounds
          exact ⟨hbounds.1.1.1, hbounds.1.1.2, hbounds.1.2, hbounds.2⟩
        · cases h
      · cases h
    · cases h
  · cases h

/-- Claim C7 (amended): the label-block `norm` (which runs `strptime`)
only produces valid Gregorian dates, and in the column-position dialect a
successful `parse_row` guarantees a calendar-valid ex date (validated by
`strptime` during the business-day derivation); the record and payable
fields are only shape-checked (see the counterexample). -/
theorem c7_valid_dates_amended :
    (∀ (tok : Tok) (ymd : Nat × Nat × Nat), IShare.norm tok = .ok ymd →
        1 ≤ ymd.2.1 ∧ ymd.2.1 ≤ 12 ∧ 1 ≤ ymd.2.2 ∧
          ymd.2.2 ≤ Cal.daysInMonth ymd.1 ymd.2.1) ∧
    (∀ (pf : Nat → Nat) (rec0 exd pay : Tok) (row : VG.VRow),
        VG.parse_row pf rec0 exd pay = .ok row →
        ∃ ymd : Nat × Nat × Nat, VG.strptimeMDY2 row.ex = some ymd ∧
          1 ≤ ymd.2.1 ∧ ymd.2.1 ≤ 12 ∧ 1 ≤ ymd.2.2 ∧
            ymd.2.2 ≤ Cal.daysInMonth ymd.1 ymd.2.1) := by
  constructor
  · intro tok ymd h
    simp only [IShare.norm] at h
    split at h
    · split at h
      · split at h
        · rename_i hdv
          split at h
          · cases h
          · rename_i mv hmv
            split at h
            · split at h
              · cases h
                rename_i hfin
                simp only [Bool.and_eq_true, decide_eq_true_eq] at hdv hfin
                have hmb := monthNumGo_bound IShare.monthAbbrevs 1 _ mv hmv
                refine ⟨hmb.1, ?_, hdv.1, hfin.2⟩
                show mv ≤ 12
                have h12 : IShare.monthAbbrevs.length = 12 := by decide
                omega
              · cases h
            · cases h
        · cases h
      · cases h
    · cases h
  · intro pf rec0 exd pay row h
    simp only [VG.parse_row, bind] at h
    cases h1 : VG.normalize_date rec0 with
    | error e => rw [h1] at h; cases h
    | ok rn =>
      rw [h1, exceptBindOk] at h
      cases h2 : VG.normalize_date exd with
      | error e => rw [h2] at h; cases h
      | ok en =>
        rw [h2, exceptBindOk] at h
        cases h3 : VG.normalize_date pay with
        | error e => rw [h3] at h; cases h
        | ok pn =>
          rw [h3, exceptBindOk] at h
          cases h4 : VG.strptimeMDY2 en with
          | none => rw [h4] at h; cases h
          | some ymd =>
            obtain ⟨y, m, d⟩ := ymd
            rw [h4] at h
            cases h
            exact ⟨(y, m, d), h4, strptimeMDY2_bounds en (y, m, d) h4⟩

/-- Witness for the amended claim C7 at the token 5-Jan-25. -/
theorem c7_valid_dates_witness :
    1 ≤ ((2025, 1, 5) : Nat × Nat × Nat).2.1 ∧ ((2025, 1, 5) : Nat × Nat × Nat).2.1 ≤ 12 ∧
      1 ≤ ((2025, 1, 5) : Nat × Nat × Nat).2.2 ∧
      ((2025, 1, 5) : Nat × Nat × Nat).2.2 ≤
        Cal.daysInMonth ((2025, 1, 5) : Nat × Nat × Nat).1 ((2025, 1, 5) : Nat × Nat × Nat).2.1 :=
  c7_valid_dates_amended.1 (ch "5-Jan-25") (2025, 1, 5) (by decide)

/-- Claim C9 counterexample: the label-block emitter (`write_ics`,
`iShareETF_arg.py` line 116) derives the UID deterministically from ticker,
field and date; two distinct events with the same date in one file get the
same UID, so UIDs are neither freshly generated nor pairwise distinct. -/
theorem c9_duplicate_uid_counterexample :
    IShare.icsEventUids (ch "SGOV") .ex
        [⟨(2025, 1, 1), (2025, 1, 2), (2025, 1, 3)⟩,
         ⟨(2025, 2, 1), (2025, 1, 2), (2025, 2, 3)⟩] =
      [ch "SGOV-ex_date-20250102", ch "SGOV-ex_date-20250102"] ∧
    ¬(IShare.icsEventUids (ch "SGOV") .ex
        [⟨(2025, 1, 1), (2025, 1, 2), (2025, 1, 3)⟩,
         ⟨(2025, 2, 1), (2025, 1, 2), (2025, 2, 3)⟩]).Nodup :=
  ⟨by decide, by decide⟩

/-- The UID draws of one run enumerate an initial segment of the stream. -/
theorem freshUidRun_eq_map (gen : Nat → Tok) :
    ∀ (counts : List Nat) (c0 : Nat),
      freshUidRun gen c0 counts = (List.range counts.sum).map fun k => gen (c0 + k) := by
  intro counts
  induction counts with
  | nil => intro c0; rfl
  | cons n rest ih =>
    intro c0
    show fileUids gen c0 n ++ freshUidRun gen (c0 + n) rest = _
    rw [ih (c0 + n)]
    simp only [List.sum_cons, List.range_add, List.map_append, List.map_map, fileUids]
    congr 1
    apply List.map_congr_left
    intro k _
    simp only [Function.comp_apply]
    exact congrArg gen (by omega)

/-- Claim C9 (amended): in the emitters that call `uuid.uuid4()` per event
(`SPDR_ETF_cfg.py` `generate_ics_from_rows`, `VanguardETF_cfg.py` and
`VanguardETF_arg.py` `csv_to_separate_ics`), the UID values of all events
of one run are pairwise distinct, for any injective stream of generated
identifiers and any per-file event counts. -/
theorem c9_fresh_uids_amended :
    ∀ (gen : Nat → Tok) (counts : List Nat), Function.Injective gen →
      (freshUidRun gen 0 counts).Nodup := by
  intro gen counts hinj
  rw [freshUidRun_eq_map]
  exact List.Nodup.map (fun a b h => by simpa using hinj h) (List.nodup_range _)

/-- Witness for the amended claim C9 at a concrete injective stream. -/
theorem c9_fresh_uids_witness : (freshUidRun (fun n => [n]) 0 [2, 3]).Nodup :=
  c9_fresh_uids_amended (fun n => [n]) [2, 3] (fun a b h => by simpa using h)

/-- Claim C10: the column-position dialect matches the ticker
case-insensitively: the line-hit test and matched position are unchanged
when the document line is upper-cased, and the whole extraction is
unchanged when the requested ticker is recased, because both sides are
upper-cased before comparison (`VanguardETF_cfg.py` lines 95 and 105). -/
theorem c10_case_insensitive_matching :
    ∀ (line : List Tok) (t : Tok) (pf : Nat → Nat) (lines : List (List Tok)),
      VG.lineHit (line.map tokUpper) t = VG.lineHit line t ∧
      VG.hitPos (line.map tokUpper) t = VG.hitPos line t ∧
      VG.extract_schedule_for_ticker pf lines (tokUpper t) =
        VG.extract_schedule_for_ticker pf lines t := by
  intro line t pf lines
  have hmm : (line.map tokUpper).map tokUpper = line.map tokUpper := by
    rw [List.map_map]
    apply List.map_congr_left
    intro a _
    exact tokUpper_idem a
  refine ⟨?_, ?_, ?_⟩
  · unfold VG.lineHit
    rw [hmm]
  · unfold VG.hitPos
    rw [hmm]
  · unfold VG.extract_schedule_for_ticker
    rw [tokUpper_idem]

/-- Claim C8 counterexample: `normalize_date` accepts the year-first token
2025/1234/5 (the fallback branch performs no digit-count check on month and
day), producing 1234/5/25; renormalizing that output succeeds but reparses
it year-first as 5/25/34, so normalize of normalize differs from
normalize. -/
theorem c8_not_idempotent_counterexample :
    VG.normalize_date (ch "2025/1234/5") = .ok (ch "1234/5/25") ∧
    VG.normalize_date (ch "1234/5/25") = .ok (ch "5/25/34") ∧
    ch "5/25/34" ≠ ch "1234/5/25" :=
  ⟨by decide, by decide, by decide⟩

/-- Digit characters shifted from 48 are ASCII digits. -/
theorem isDigitC_48add (k : Nat) (h : k ≤ 9) : isDigitC (48 + k) = true := by
  simp only [isDigitC, decide_eq_true_eq]
  omega

/-- The numeric value of an at-most-two-character digit string is below
100. -/
theorem digitsVal_lt_100 (t : Tok) (hd : t.all isDigitC = true) (hl : t.length ≤ 2) :
    digitsVal t < 100 := by
  rcases t with _ | ⟨a, _ | ⟨b, _ | ⟨c, rest⟩⟩⟩
  · decide
  · simp only [List.all_cons, List.all_nil, Bool.and_true, isDigitC, decide_eq_true_eq] at hd
    unfold digitsVal
    simp only [List.foldl_cons, List.foldl_nil]
    omega
  · simp only [List.all_cons, List.all_nil, Bool.and_true, Bool.and_eq_true, isDigitC,
      decide_eq_true_eq] at hd
    unfold digitsVal
    simp only [List.foldl_cons, List.foldl_nil]
    omega
  · simp only [List.length_cons] at hl
    omega

/-- The fuelled decimal renderer on one digit. -/
theorem natTokGo_small (fuel n : Nat) (hf : 0 < fuel) (h : n < 10) :
    natTokGo fuel n = [48 + n] := by
  obtain ⟨f, rfl⟩ : ∃ f, fuel = f + 1 := ⟨fuel - 1, by omega⟩
  simp only [natTokGo]
  rw [if_pos h]

/-- One-digit rendering. -/
theorem natTok_small (n : Nat) (h : n < 10) : natTok n = [48 + n] :=
  natTokGo_small (n + 1) n (by omega) h

/-- Two-digit rendering. -/
theorem natTok_two (n : Nat) (h1 : 10 ≤ n) (h2 : n < 100) :
    natTok n = [48 + n / 10, 48 + n % 10] := by
  unfold natTok
  simp only [natTokGo]
  rw [if_neg (by omega)]
  rw [natTokGo_small n (n / 10) (by omega) (by omega)]
  rfl

/-- Decimal rendering round-trips through the digit value, below 100. -/
theorem digitsVal_natTok (n : Nat) (h : n < 100) : digitsVal (natTok n) = n := by
  by_cases h10 : n < 10
  · rw [natTok_small n h10]
    unfold digitsVal
    simp only [List.foldl_cons, List.foldl_nil]
    omega
  · rw [natTok_two n (by omega) h]
    unfold digitsVal
    simp only [List.foldl_cons, List.foldl_nil]
    omega

/-- The rendering of a number below 100 is an all-digit string. -/
theorem natTok_digits (n : Nat) (h : n < 100) : (natTok n).all isDigitC = true := by
  by_cases h10 : n < 10
  · rw [natTok_small n h10]
    simp only [List.all_cons, List.all_nil, Bool.and_true, isDigitC, decide_eq_true_eq]
    omega
  · rw [natTok_two n (by omega) h]
    simp only [List.all_cons, List.all_nil, Bool.and_true, Bool.and_eq_true, isDigitC,
      decide_eq_true_eq]
    omega

/-- The rendering of a number below 100 is 1-2 characters and nonempty. -/
theorem natTok_len_le (n : Nat) (h : n < 100) : (natTok n).length ≤ 2 ∧ natTok n ≠ [] := by
  by_cases h10 : n < 10
  · rw [natTok_small n h10]
    exact ⟨by simp, by simp⟩
  · rw [natTok_two n (by omega) h]
    exact ⟨by simp, by simp⟩

/-- Python `int` succeeds exactly on nonempty digit strings and returns the
digit value. -/
theorem pyInt?_inv (t : Tok) (n : Nat) (h : pyInt? t = some n) :
    t ≠ [] ∧ t.all isDigitC = true ∧ n = digitsVal t := by
  unfold pyInt? at h
  split at h
  · cases h
    rename_i hc
    simp only [Bool.and_eq_true, decide_eq_true_eq] at hc
    exact ⟨hc.1, hc.2, rfl⟩
  · cases h

/-- A `DATE_PATTERN` match has a 2-or-4-digit year group. -/
theorem patParse_year (t ms ds ys : Tok) (h : VG.patParse t = some (ms, ds, ys)) :
    ys.length = 2 ∨ ys.length = 4 := by
  simp only [VG.patParse] at h
  split at h
  · cases h
  · split at h
    · split at h
      · split at h
        · cases h
        · split at h
          · split at h
            · split at h
              · cases h
                rename_i hcond
                simp only [Bool.and_eq_true, decide_eq_true_eq] at hcond
                exact hcond.2
              · cases h
            · cases h
          · cases h
      · cases h
    · cases h

/-- The year field selected by `normalize_date` has two or four
characters. -/
theorem splitFields_year (t ms ds ys : Tok) (h : VG.splitFields t = some (ms, ds, ys)) :
    ys.length = 2 ∨ ys.length = 4 := by
  simp only [VG.splitFields] at h
  split at h
  · rename_i g hg
    cases h
    exact patParse_year t ms ds ys hg
  · split at h
    · split at h
      · rename_i hlen
        cases h
        right
        exact hlen
      · cases h
    · cases h

/-- The pattern `DATE_PATTERN` accepts a canonically rendered month-slash-day-slash
two-digit-year token and recovers exactly its three fields. -/
theorem patParse_canonical (im idv y1 y2 : Nat) (him : im < 100) (hid : idv < 100)
    (hy1 : isDigitC y1 = true) (hy2 : isDigitC y2 = true) :
    VG.patParse (natTok im ++ [47] ++ natTok idv ++ [47] ++ [y1, y2]) =
      some (natTok im, natTok idv, [y1, y2]) := by
  have h47d : isDigitC 47 = false := by decide
  have h47s : VG.isSepC 47 = true := by decide
  by_cases ha : im < 10
  · by_cases hb : idv < 10
    · rw [natTok_small im ha, natTok_small idv hb]
      simp only [List.cons_append, List.nil_append]
      simp [VG.patParse, VG.takeDigits2, isDigitC_48add im (by omega),
        isDigitC_48add idv (by omega), h47d, h47s, hy1, hy2]
    · rw [natTok_small im ha, natTok_two idv (by omega) hid]
      simp only [List.cons_append, List.nil_append]
      simp [VG.patParse, VG.takeDigits2, isDigitC_48add im (by omega),
        isDigitC_48add (idv / 10) (by omega), isDigitC_48add (idv % 10) (by omega),
        h47d, h47s, hy1, hy2]
  · by_cases hb : idv < 10
    · rw [natTok_two im (by omega) him, natTok_small idv hb]
      simp only [List.cons_append, List.nil_append]
      simp [VG.patParse, VG.takeDigits2, isDigitC_48add (im / 10) (by omega),
        isDigitC_48add (im % 10) (by omega), isDigitC_48add idv (by omega),
        h47d, h47s, hy1, hy2]
    · rw [natTok_two im (by omega) him, natTok_two idv (by omega) hid]
      simp only [List.cons_append, List.nil_append]
      simp [VG.patParse, VG.takeDigits2, isDigitC_48add (im / 10) (by omega),
        isDigitC_48add (im % 10) (by omega), isDigitC_48add (idv / 10) (by omega),
        isDigitC_48add (idv % 10) (by omega), h47d, h47s, hy1, hy2]

/-- Applying `normalize_date` is the identity on a canonically rendered token. -/
theorem normalize_canonical (im idv : Nat) (yy : Tok) (him : im < 100) (hid : idv < 100)
    (hyy : yy.length = 2) (hyd : yy.all isDigitC = true) :
    VG.normalize_date (natTok im ++ [47] ++ natTok idv ++ [47] ++ yy) =
      .ok (natTok im ++ [47] ++ natTok idv ++ [47] ++ yy) := by
  rcases yy with _ | ⟨y1, _ | ⟨y2, _ | ⟨y3, tl⟩⟩⟩
  · simp at hyy
  · simp at hyy
  · simp only [List.all_cons, List.all_nil, Bool.and_true, Bool.and_eq_true] at hyd
    have hpp := patParse_canonical im idv y1 y2 him hid hyd.1 hyd.2
    have hsf : VG.splitFields (natTok im ++ [47] ++ natTok idv ++ [47] ++ [y1, y2]) =
        some (natTok im, natTok idv, [y1, y2]) := by
      unfold VG.splitFields
      rw [hpp]
    have hpi1 : pyInt? (natTok im) = some im := by
      unfold pyInt?
      rw [if_pos (show (decide (natTok im ≠ []) && (natTok im).all isDigitC) = true by
        simp [(natTok_len_le im him).2, natTok_digits im him])]
      rw [digitsVal_natTok im him]
    have hpi2 : pyInt? (natTok idv) = some idv := by
      unfold pyInt?
      rw [if_pos (show (decide (natTok idv ≠ []) && (natTok idv).all isDigitC) = true by
        simp [(natTok_len_le idv hid).2, natTok_digits idv hid])]
      rw [digitsVal_natTok idv hid]
    simp only [VG.normalize_date, hsf, hpi1, hpi2]
    rfl
  · simp at hyy

/-- Claim C8 (amended): `normalize_date` is idempotent on every accepted
token whose month and day fields have at most two characters and whose
year field ends in two digits (all `DATE_PATTERN` tokens satisfy this; the
year-first fallback tokens violating it are exactly the counterexamples). -/
theorem c8_idempotent_amended :
    ∀ (tok ms ds ys r : Tok),
      VG.splitFields tok = some (ms, ds, ys) →
      ms.length ≤ 2 → ds.length ≤ 2 →
      (ys.drop (ys.length - 2)).all isDigitC = true →
      VG.normalize_date tok = .ok r →
      VG.normalize_date r = .ok r := by
  intro tok ms ds ys r hsf hms hds hyd h
  simp only [VG.normalize_date, hsf] at h
  cases hm : pyInt? ms with
  | none => rw [hm] at h; cases h
  | some im =>
    cases hd : pyInt? ds with
    | none => rw [hm, hd] at h; cases h
    | some idv =>
      rw [hm, hd] at h
      cases h
      obtain ⟨hm1, hm2, hm3⟩ := pyInt?_inv ms im hm
      obtain ⟨hd1, hd2, hd3⟩ := pyInt?_inv ds idv hd
      have him : im < 100 := by
        rw [hm3]
        exact digitsVal_lt_100 ms hm2 hms
      have hid : idv < 100 := by
        rw [hd3]
        exact digitsVal_lt_100 ds hd2 hds
      have hyl : (ys.drop (ys.length - 2)).length = 2 := by
        rcases splitFields_year tok ms ds ys hsf with h2 | h4
        · rw [List.length_drop]
          omega
        · rw [List.length_drop]
          omega
      exact normalize_canonical im idv (ys.drop (ys.length - 2)) him hid hyl hyd

/-- Witness for the amended claim C8 at the token 1/15/2025. -/
theorem c8_idempotent_witness : VG.normalize_date (ch "1/15/25") = .ok (ch "1/15/25") :=
  c8_idempotent_amended (ch "1/15/2025") (ch "1") (ch "15") (ch "2025") (ch "1/15/25")
    (by decide) (by decide) (by decide) (by decide) (by decide)
